import Mathlib

/-!
# FixRes preprocessing pipeline — a shallow embedding

This file embeds the data-preprocessing core of the FixRes tutorial
notebook (`examples/vision/ipynb/fixres.ipynb`): the two preprocessing
strategies `preprocess_initial` and `preprocess_finetune`, the constants
they use, and the dataset-pipeline assembler `make_dataset`
(validation → strategy selection → shuffle → map → batch → prefetch).

Modelling conventions:
* An image is a `height × width × channels` tensor of rational pixel
  values, represented by its shape together with a total indexing
  function.
* TensorFlow's ambient randomness is made explicit: each per-example
  invocation receives a `Draw` record holding the draw of
  `tf.image.sample_distorted_bounding_box` (a proposed crop region,
  validated against the op's constraints, with the documented
  whole-image fallback) and the coin of
  `tf.image.random_flip_left_right`.
* `dataset.shuffle(buffer)` is the streaming windowed shuffle: fill a
  buffer, repeatedly emit the element at a (random) index taken from a
  stream of coins, refilling the slot from the input while it lasts.
* `dataset.map` keeps input order (tf.data is deterministic by
  default); `num_parallel_calls` and `prefetch` are throughput hints
  with no functional semantics, kept as identity on the stream.
* `tf.image.resize` is bilinear interpolation with half-pixel centers
  (the TF2 default), in exact rational arithmetic.
-/

/-- A pixel tensor: shape plus a total indexing function
`pix row col channel`. Values are rationals (the notebook's images are
`[0, 255]`-valued floats after decoding). -/
structure Image where
  height : Nat
  width : Nat
  channels : Nat
  pix : Nat → Nat → Nat → ℚ

/-- Integer class label. -/
abbrev Label := Nat

/-- An `(image, label)` example, the element type of the dataset. -/
abbrev Example := Image × Label

/-- A rectangular crop region: top-left offset and size, in pixels. -/
structure CropRegion where
  y : Nat
  x : Nat
  h : Nat
  w : Nat
deriving DecidableEq

/-- The explicit random draws consumed by one per-example preprocessing
call: the crop-region proposal of `sample_distorted_bounding_box` and
the coin of `random_flip_left_right`. -/
structure Draw where
  region : CropRegion
  flip : Bool

/-! ## Notebook constants -/

def batch_size : Nat := 128

def smaller_size : Nat := 128

def bigger_size : Nat := 224

/-- `int((bigger_size / smaller_size) * bigger_size)` — Python float
division then truncation, modelled exactly over `ℚ`. -/
def size_for_resizing : Nat :=
  Int.toNat ⌊((bigger_size : ℚ) / (smaller_size : ℚ)) * (bigger_size : ℚ)⌋

/-! ## Image transform primitives -/

/-- Source sampling coordinate of bilinear resize with half-pixel
centers: `(i + 0.5) * inSize / outSize - 0.5`. -/
def sourceCoord (inSize outSize i : Nat) : ℚ :=
  ((i : ℚ) + 1 / 2) * (inSize : ℚ) / (outSize : ℚ) - 1 / 2

/-- One-dimensional bilinear interpolation of `f` at coordinate `x`,
with indices clamped to `[0, inSize - 1]`. -/
def interp1 (inSize : Nat) (f : Nat → ℚ) (x : ℚ) : ℚ :=
  let xc := max x 0
  let x0 := min (Int.toNat ⌊xc⌋) (inSize - 1)
  let x1 := min (x0 + 1) (inSize - 1)
  let t := xc - (x0 : ℚ)
  (1 - t) * f x0 + t * f x1

/-- `tf.image.resize(image, [h, w])`: bilinear resize to `h × w`,
channels unchanged. -/
def resize (img : Image) (h w : Nat) : Image where
  height := h
  width := w
  channels := img.channels
  pix := fun y x c =>
    interp1 img.height
      (fun yy => interp1 img.width (fun xx => img.pix yy xx c) (sourceCoord img.width w x))
      (sourceCoord img.height h y)

/-- `tf.slice(image, begin, size)` for a spatial crop region (all
channels kept). -/
def Image.sliceRegion (img : Image) (r : CropRegion) : Image where
  height := r.h
  width := r.w
  channels := img.channels
  pix := fun y x c => img.pix (r.y + y) (r.x + x) c

/-- Mirror an image horizontally. -/
def flip_left_right (img : Image) : Image where
  height := img.height
  width := img.width
  channels := img.channels
  pix := fun y x c => img.pix y (img.width - 1 - x) c

/-- `tf.image.random_flip_left_right`: flip when the (explicit) coin
comes up `true`, i.e. with probability 1/2 under the ambient RNG. -/
def random_flip_left_right (coin : Bool) (img : Image) : Image :=
  if coin then flip_left_right img else img

/-- The region covering the whole image. -/
def wholeImage (img : Image) : CropRegion :=
  ⟨0, 0, img.height, img.width⟩

/-- The constraints `tf.image.sample_distorted_bounding_box` guarantees
for a returned crop window, at the notebook's call site: nonempty, in
bounds, area a fraction of the full image area in
`area_range = (0.05, 1.0)`, and aspect ratio (width/height) in the
op's default `aspect_ratio_range = (0.75, 1.33)`. -/
def validCrop (img : Image) (r : CropRegion) : Bool :=
  0 < r.h && 0 < r.w &&
  r.y + r.h ≤ img.height && r.x + r.w ≤ img.width &&
  img.height * img.width ≤ 20 * (r.h * r.w) &&
  r.h * r.w ≤ img.height * img.width &&
  3 * r.h ≤ 4 * r.w && 100 * r.w ≤ 133 * r.h

/-- `tf.image.sample_distorted_bounding_box(..., area_range=(0.05, 1.0),
min_object_covered=0, use_image_if_no_bounding_boxes=True)`: the random
draw is the proposed region; a proposal violating the op's constraints
falls back to the whole image (`use_image_if_no_bounding_boxes`). -/
def sample_distorted_bounding_box (img : Image) (proposal : CropRegion) : CropRegion :=
  if validCrop img proposal then proposal else wholeImage img

/-- `keras.layers.CenterCrop(crop_h, crop_w)`: deterministic central
crop, top-left corner at `((H - crop_h) / 2, (W - crop_w) / 2)` (floor
division, as in the layer). -/
def central_crop (crop_h crop_w : Nat) (img : Image) : Image where
  height := crop_h
  width := crop_w
  channels := img.channels
  pix := fun y x c =>
    img.pix ((img.height - crop_h) / 2 + y) ((img.width - crop_w) / 2 + x) c

/-- `central_crop_layer = layers.CenterCrop(bigger_size, bigger_size)`.
The notebook applies it to `image[None, ...]` and takes `[0]`; adding
and removing the singleton batch axis is the identity here. -/
def central_crop_layer : Image → Image :=
  central_crop bigger_size bigger_size

/-! ## The two preprocessing strategies -/

/-- `preprocess_initial(train, image_size)`: returns the per-example
function `_pp(image, label, train)`. For training: sample a distorted
bounding box, `tf.slice` to it, resize to `image_size²`, random
horizontal flip. For validation: plain resize. (As in the source, the
inner `train` parameter shadows the outer one.) -/
def preprocess_initial (train : Bool) (image_size : Nat) :
    Image → Label → Bool → Draw → Image × Label :=
  fun image label train r =>
    if train then
      let region := sample_distorted_bounding_box image r.region
      let image := image.sliceRegion region
      let image := resize image image_size image_size
      let image := random_flip_left_right r.flip image
      (image, label)
    else
      (resize image image_size image_size, label)

/-- `preprocess_finetune(image, label, train)`: resize the full image to
`size_for_resizing²` to keep the apparent object scale, random
horizontal flip when training, then the deterministic center crop to
`bigger_size²`. -/
def preprocess_finetune (image : Image) (label : Label) (train : Bool) (r : Draw) :
    Image × Label :=
  let image := resize image size_for_resizing size_for_resizing
  let image := if train then random_flip_left_right r.flip image else image
  let image := central_crop_layer image
  (image, label)

/-! ## Pipeline assembly -/

/-- The single configuration error of the pipeline: a resolution other
than `smaller_size` or `bigger_size`
(`ValueError(f"{image_size} resolution is not supported.")`). -/
inductive DatasetError where
  | unsupportedResolution (image_size : Nat)
deriving DecidableEq

/-- The strategy-selection chain of `make_dataset`: `preprocess_initial`
for the small resolution, `preprocess_initial` again for the big
resolution without fixres, `preprocess_finetune` otherwise. -/
def selectPreprocess (train : Bool) (image_size : Nat) (fixres : Bool) :
    Image → Label → Bool → Draw → Image × Label :=
  if image_size = smaller_size then
    preprocess_initial train image_size
  else if fixres = false ∧ image_size = bigger_size then
    preprocess_initial train image_size
  else
    preprocess_finetune

/-- One emission step of `dataset.shuffle(buffer)`: with a nonempty
buffer, emit the element at index `coin % buffer.length`; while input
remains, the freed slot is refilled with the next input element,
afterwards the buffer drains. -/
def shuffleGo : List Example → List Example → List Nat → List Example
  | [], _, _ => []
  | b :: bs, [], coins =>
    let i := coins.headD 0 % (bs.length + 1)
    (b :: bs).getD i b :: shuffleGo ((b :: bs).eraseIdx i) [] coins.tail
  | b :: bs, r :: rs, coins =>
    let i := coins.headD 0 % (bs.length + 1)
    (b :: bs).getD i b :: shuffleGo ((b :: bs).set i r) rs coins.tail
termination_by buf rest _ => buf.length + rest.length
decreasing_by
  · have h : coins.head?.getD 0 % (bs.length + 1) < bs.length + 1 :=
      Nat.mod_lt _ (Nat.succ_pos _)
    simp [List.length_eraseIdx, h]
  · simp

/-- `dataset.shuffle(window)` driven by an explicit stream of index
draws. -/
def tfShuffle (window : Nat) (coins : List Nat) (xs : List Example) : List Example :=
  shuffleGo (xs.take window) (xs.drop window) coins

/-- `dataset.map(...)` in default (deterministic, order-preserving)
mode; the ambient RNG is made explicit by handing call `i` the draw
`rng i`. -/
def mapExamples (f : Image → Label → Bool → Draw → Image × Label) (train : Bool)
    (rng : Nat → Draw) (xs : List Example) : List Example :=
  xs.mapIdx fun i e => f e.1 e.2 train (rng i)

/-- `dataset.batch(b)`: split the stream into consecutive chunks of
size `b`, a final partial chunk allowed. -/
def batchList (b : Nat) (xs : List Example) : List (List Example) :=
  if xs.length = 0 ∨ b = 0 then [] else xs.take b :: batchList b (xs.drop b)
termination_by xs.length
decreasing_by
  rename_i h
  push_neg at h
  simp
  omega

/-- `dataset.prefetch(hint)`: a pure throughput hint, the identity on
the stream of batches. -/
def prefetch (hint : Nat) (xs : List (List Example)) : List (List Example) := xs

/-- `make_dataset(dataset, train, image_size, fixres)`: reject an
unsupported resolution, pick the preprocessing function, shuffle a
`batch_size * 10` window when training, map, batch, prefetch. -/
def make_dataset (dataset : List Example) (train : Bool) (image_size : Nat)
    (fixres : Bool) (num_parallel_calls : Nat) (coins : List Nat) (rng : Nat → Draw) :
    Except DatasetError (List (List Example)) :=
  if image_size ∉ [smaller_size, bigger_size] then
    .error (.unsupportedResolution image_size)
  else
    let preprocess_func := selectPreprocess train image_size fixres
    let dataset := if train then tfShuffle (batch_size * 10) coins dataset else dataset
    .ok (prefetch num_parallel_calls
      (batchList batch_size (mapExamples preprocess_func train rng dataset)))

/-! ## Shape lemmas for the image primitives -/

@[simp] lemma resize_height (img : Image) (h w : Nat) : (resize img h w).height = h := rfl

@[simp] lemma resize_width (img : Image) (h w : Nat) : (resize img h w).width = w := rfl

@[simp] lemma resize_channels (img : Image) (h w : Nat) :
    (resize img h w).channels = img.channels := rfl

@[simp] lemma sliceRegion_channels (img : Image) (r : CropRegion) :
    (img.sliceRegion r).channels = img.channels := rfl

@[simp] lemma flip_height (c : Bool) (img : Image) :
    (random_flip_left_right c img).height = img.height := by
  cases c <;> rfl

@[simp] lemma flip_width (c : Bool) (img : Image) :
    (random_flip_left_right c img).width = img.width := by
  cases c <;> rfl

@[simp] lemma flip_channels (c : Bool) (img : Image) :
    (random_flip_left_right c img).channels = img.channels := by
  cases c <;> rfl

@[simp] lemma central_crop_height (h w : Nat) (img : Image) :
    (central_crop h w img).height = h := rfl

@[simp] lemma central_crop_width (h w : Nat) (img : Image) :
    (central_crop h w img).width = w := rfl

@[simp] lemma central_crop_channels (h w : Nat) (img : Image) :
    (central_crop h w img).channels = img.channels := rfl

lemma size_for_resizing_eq : size_for_resizing = 392 := by
  have h : ((bigger_size : ℚ) / (smaller_size : ℚ)) * (bigger_size : ℚ) = 392 := by
    norm_num [smaller_size, bigger_size]
  rw [size_for_resizing, h]
  rfl

/-- C9: every preprocessing strategy returns the input label unchanged,
for every resolution, train flag, fixres flag and random draw (the
embedding is pure, so the input example is never mutated). -/
theorem preprocess_preserves_label (train fixres trainArg : Bool) (image_size : Nat)
    (img : Image) (lbl : Label) (d : Draw) :
    ((selectPreprocess train image_size fixres) img lbl trainArg d).2 = lbl := by
  unfold selectPreprocess preprocess_initial preprocess_finetune
  split_ifs <;> cases trainArg <;> rfl

/-- C5: for the big resolution with `fixres = false`, `make_dataset`
selects the very same function `preprocess_initial` that the small
resolution uses, applied at the other size — the initial strategy is
resolution-parametric and reused verbatim. -/
theorem bigres_nofixres_selects_initial (train fixres : Bool) :
    selectPreprocess train bigger_size false = preprocess_initial train bigger_size ∧
    selectPreprocess train smaller_size fixres = preprocess_initial train smaller_size := by
  constructor <;> simp [selectPreprocess, smaller_size, bigger_size]

/-- C3: at `resolution = 224, fixres = true, train = false` the selected
preprocessing function is deterministic — independent of the random
draws — and equals resizing the full image to `392 × 392` followed by a
`224 × 224` center crop. -/
theorem finetune_eval_deterministic (img : Image) (lbl : Label) (d d2 : Draw) :
    selectPreprocess false 224 true img lbl false d =
      selectPreprocess false 224 true img lbl false d2 ∧
    selectPreprocess false 224 true img lbl false d =
      (central_crop 224 224 (resize img 392 392), lbl) := by
  refine ⟨rfl, ?_⟩
  simp [selectPreprocess, smaller_size, bigger_size, preprocess_finetune,
    central_crop_layer, size_for_resizing_eq]

/-- C7: the intermediate resize size of the fixres fine-tune strategy is
`int((224 / 128) * 224) = 392`, and the deterministic center crop of
size 224 from the `392 × 392` resized image starts at offset
`(392 - 224) / 2 = 84` on each spatial axis. -/
theorem resize_and_center_crop_constants (img : Image) (y x c : Nat) :
    size_for_resizing = 392 ∧
    (size_for_resizing - bigger_size) / 2 = 84 ∧
    (central_crop_layer (resize img size_for_resizing size_for_resizing)).pix y x c =
      (resize img 392 392).pix (84 + y) (84 + x) c := by
  refine ⟨size_for_resizing_eq, ?_, ?_⟩ <;>
    simp [size_for_resizing_eq, bigger_size, central_crop_layer, central_crop]

/-- C2: for any resolution outside `{smaller_size, bigger_size}` and
every combination of the remaining arguments, `make_dataset` fails with
`UnsupportedResolution` — the result is this error for every dataset,
coin stream and RNG, so no shuffle, per-example transform or batching
work contributes to it. -/
theorem make_dataset_rejects_unsupported_resolution (ds : List Example)
    (train fixres : Bool) (sz npc : Nat) (coins : List Nat) (rng : Nat → Draw)
    (h1 : sz ≠ smaller_size) (h2 : sz ≠ bigger_size) :
    make_dataset ds train sz fixres npc coins rng =
      .error (.unsupportedResolution sz) := by
  simp [make_dataset, h1, h2]

/-- Witness for C2 at the spec's concrete input `resolution = 100`. -/
theorem make_dataset_rejects_unsupported_resolution_witness :
    (100 ≠ smaller_size ∧ 100 ≠ bigger_size) ∧
      make_dataset [] false 100 true 0 [] (fun _ => ⟨⟨0, 0, 1, 1⟩, false⟩) =
        .error (.unsupportedResolution 100) :=
  ⟨⟨by decide, by decide⟩,
    make_dataset_rejects_unsupported_resolution [] false true 100 0 []
      (fun _ => ⟨⟨0, 0, 1, 1⟩, false⟩) (by decide) (by decide)⟩

/-- C10: at the small resolution the `fixres` flag is irrelevant — the
small-resolution branch of the selection chain fires before `fixres` is
consulted, so the assembled pipeline is the same function of the data
for both values of the flag. -/
theorem small_resolution_fixres_irrelevant (ds : List Example) (train fixres fx2 : Bool)
    (npc : Nat) (coins : List Nat) (rng : Nat → Draw) :
    make_dataset ds train 128 fixres npc coins rng =
      make_dataset ds train 128 fx2 npc coins rng := by
  simp [make_dataset, selectPreprocess, smaller_size, bigger_size]

/-- A tiny concrete image used by the witnesses. -/
def testImage : Image := ⟨2, 2, 3, fun _ _ _ => 0⟩

/-- A concrete random draw used by the witnesses. -/
def testDraw : Draw := ⟨⟨0, 0, 1, 1⟩, true⟩

/-- C1: for every supported resolution, every train/fixres combination
and every 3-channel input image, the image produced by the selected
preprocessing function has exact shape `[r, r, 3]`. -/
theorem preprocess_output_shape (r : Nat) (train fixres trainArg : Bool)
    (img : Image) (lbl : Label) (d : Draw)
    (hr : r = smaller_size ∨ r = bigger_size) (hc : img.channels = 3) :
    ((selectPreprocess train r fixres) img lbl trainArg d).1.height = r ∧
    ((selectPreprocess train r fixres) img lbl trainArg d).1.width = r ∧
    ((selectPreprocess train r fixres) img lbl trainArg d).1.channels = 3 := by
  rcases hr with rfl | rfl <;> cases fixres <;> cases trainArg <;>
    simp [selectPreprocess, smaller_size, bigger_size, preprocess_initial,
      preprocess_finetune, central_crop_layer, hc]

/-- Witness for C1 at resolution 224, `train = fixres = true`, on a
concrete 3-channel image. -/
theorem preprocess_output_shape_witness :
    ((224 : Nat) = smaller_size ∨ (224 : Nat) = bigger_size) ∧ testImage.channels = 3 ∧
    (((selectPreprocess true 224 true) testImage 0 true testDraw).1.height = 224 ∧
     ((selectPreprocess true 224 true) testImage 0 true testDraw).1.width = 224 ∧
     ((selectPreprocess true 224 true) testImage 0 true testDraw).1.channels = 3) :=
  ⟨Or.inr rfl, rfl,
    preprocess_output_shape 224 true true true testImage 0 testDraw (Or.inr rfl) rfl⟩

/-- C4: at `resolution = 224, fixres = true, train = true` two runs on
the same image can differ only through the horizontal-flip coin: equal
coins give equal outputs, the output is the fixed center crop of the
(possibly flipped) `392 × 392` resize, and the output shape is always
`[224, 224, 3]`. -/
theorem finetune_train_flip_only (img : Image) (lbl : Label) (d d2 : Draw)
    (hc : img.channels = 3) (hf : d.flip = d2.flip) :
    selectPreprocess true 224 true img lbl true d =
      selectPreprocess true 224 true img lbl true d2 ∧
    selectPreprocess true 224 true img lbl true d =
      (central_crop 224 224 (random_flip_left_right d.flip (resize img 392 392)), lbl) ∧
    (selectPreprocess true 224 true img lbl true d).1.height = 224 ∧
    (selectPreprocess true 224 true img lbl true d).1.width = 224 ∧
    (selectPreprocess true 224 true img lbl true d).1.channels = 3 := by
  have hsel : selectPreprocess true 224 true = preprocess_finetune := by
    simp [selectPreprocess, smaller_size, bigger_size]
  have hpf : ∀ dd : Draw, preprocess_finetune img lbl true dd =
      (central_crop 224 224 (random_flip_left_right dd.flip (resize img 392 392)), lbl) := by
    intro dd
    show (central_crop_layer (random_flip_left_right dd.flip
      (resize img size_for_resizing size_for_resizing)), lbl) = _
    rw [size_for_resizing_eq]
    rfl
  rw [hsel, hpf d, hpf d2, hf]
  refine ⟨rfl, rfl, rfl, rfl, ?_⟩
  simp [hc]

/-- Witness for C4 on a concrete image and two equal flip coins. -/
theorem finetune_train_flip_only_witness :
    testImage.channels = 3 ∧ testDraw.flip = testDraw.flip ∧
    (selectPreprocess true 224 true testImage 0 true testDraw =
       selectPreprocess true 224 true testImage 0 true testDraw ∧
     selectPreprocess true 224 true testImage 0 true testDraw =
       (central_crop 224 224 (random_flip_left_right testDraw.flip (resize testImage 392 392)), 0) ∧
     (selectPreprocess true 224 true testImage 0 true testDraw).1.height = 224 ∧
     (selectPreprocess true 224 true testImage 0 true testDraw).1.width = 224 ∧
     (selectPreprocess true 224 true testImage 0 true testDraw).1.channels = 3) :=
  ⟨rfl, rfl, finetune_train_flip_only testImage 0 testDraw testDraw rfl rfl⟩

/-- C6: the initial strategy. Training: crop to the sampled
bounding box — always in bounds, with area between 0.05 and 1.0 of the
full image area, falling back to the whole image when the proposal is
invalid — resize the crop to `image_size²`, then the flip coin.
Evaluation: plain resize of the full image, independent of the draws. -/
theorem initial_strategy_behavior (train : Bool) (image_size : Nat) (img : Image)
    (lbl : Label) (d d2 : Draw) :
    (preprocess_initial train image_size img lbl true d =
      (random_flip_left_right d.flip
        (resize (img.sliceRegion (sample_distorted_bounding_box img d.region))
          image_size image_size), lbl)) ∧
    ((sample_distorted_bounding_box img d.region).y +
        (sample_distorted_bounding_box img d.region).h ≤ img.height ∧
     (sample_distorted_bounding_box img d.region).x +
        (sample_distorted_bounding_box img d.region).w ≤ img.width ∧
     img.height * img.width ≤
        20 * ((sample_distorted_bounding_box img d.region).h *
          (sample_distorted_bounding_box img d.region).w) ∧
     (sample_distorted_bounding_box img d.region).h *
        (sample_distorted_bounding_box img d.region).w ≤ img.height * img.width ∧
     (validCrop img d.region = false →
        sample_distorted_bounding_box img d.region = wholeImage img)) ∧
    (preprocess_initial train image_size img lbl false d =
      (resize img image_size image_size, lbl)) ∧
    (preprocess_initial train image_size img lbl false d =
      preprocess_initial train image_size img lbl false d2) := by
  have he : ∀ dd : Draw, preprocess_initial train image_size img lbl false dd =
      (resize img image_size image_size, lbl) := fun _ => rfl
  refine ⟨rfl, ?_, he d, (he d).trans (he d2).symm⟩
  by_cases hv : validCrop img d.region = true
  · have hs : sample_distorted_bounding_box img d.region = d.region := by
      simp [sample_distorted_bounding_box, hv]
    rw [hs]
    have hv1 := hv
    simp only [validCrop, Bool.and_eq_true, decide_eq_true_eq] at hv1
    obtain ⟨⟨⟨⟨⟨⟨⟨h1, h2⟩, h3⟩, h4⟩, h5⟩, h6⟩, h7⟩, h8⟩ := hv1
    exact ⟨h3, h4, h5, h6, fun hfalse => absurd (hv.symm.trans hfalse) (by decide)⟩
  · have hv2 : validCrop img d.region = false := by simpa using hv
    have hs : sample_distorted_bounding_box img d.region = wholeImage img := by
      simp [sample_distorted_bounding_box, hv2]
    rw [hs]
    refine ⟨?_, ?_, ?_, ?_, fun _ => rfl⟩
    · show 0 + img.height ≤ img.height
      omega
    · show 0 + img.width ≤ img.width
      omega
    · show img.height * img.width ≤ 20 * (img.height * img.width)
      exact Nat.le_mul_of_pos_left _ (by norm_num)
    · show img.height * img.width ≤ img.height * img.width
      exact le_refl _

/-! ## Length bookkeeping for the pipeline stages -/

lemma shuffleGo_length (buf rest : List Example) (coins : List Nat) :
    (shuffleGo buf rest coins).length =
      if buf.isEmpty then 0 else buf.length + rest.length := by
  induction buf, rest, coins using shuffleGo.induct with
  | case1 rest coins => simp [shuffleGo]
  | case2 b bs coins i ih =>
      unfold_let i at ih
      simp only [List.headD_eq_head?] at ih
      have hi : coins.head?.getD 0 % (bs.length + 1) < bs.length + 1 :=
        Nat.mod_lt _ (Nat.succ_pos _)
      have hlen : ((b :: bs).eraseIdx (coins.head?.getD 0 % (bs.length + 1))).length
          = bs.length := by
        rw [List.length_eraseIdx]
        simp [hi]
      simp only [shuffleGo, List.headD_eq_head?, List.length_cons, List.length_nil,
        List.isEmpty_cons, ih]
      cases h0 : ((b :: bs).eraseIdx (coins.head?.getD 0 % (bs.length + 1))).isEmpty with
      | true =>
          have h1 := List.isEmpty_iff.mp h0
          rw [h1] at hlen
          simp [h0]
          have h2 : bs.length = 0 := by simpa using hlen.symm
          exact List.length_eq_zero.mp h2
      | false =>
          simp [h0, hlen]
  | case3 b bs r rs coins i ih =>
      unfold_let i at ih
      simp only [List.headD_eq_head?] at ih
      have hne : ((b :: bs).set (coins.head?.getD 0 % (bs.length + 1)) r).isEmpty = false := by
        have h2 : ((b :: bs).set (coins.head?.getD 0 % (bs.length + 1)) r) ≠ [] := by
          apply List.ne_nil_of_length_pos
          simp
        simpa [List.isEmpty_iff] using h2
      simp only [shuffleGo, List.headD_eq_head?, List.length_cons, List.isEmpty_cons, ih]
      simp [hne, List.length_set]
      omega

lemma tfShuffle_length (w : Nat) (coins : List Nat) (xs : List Example) (hw : 0 < w) :
    (tfShuffle w coins xs).length = xs.length := by
  unfold tfShuffle
  rw [shuffleGo_length]
  by_cases hx : xs = []
  · subst hx
    simp
  · have ht : (xs.take w).isEmpty = false := by
      have h2 : xs.take w ≠ [] := by
        rw [Ne, List.take_eq_nil_iff]
        push_neg
        exact ⟨by omega, hx⟩
      simpa [List.isEmpty_iff] using h2
    simp [ht]
    omega

lemma mapExamples_length (f : Image → Label → Bool → Draw → Image × Label) (train : Bool)
    (rng : Nat → Draw) (xs : List Example) :
    (mapExamples f train rng xs).length = xs.length := by
  simp [mapExamples]

lemma batchList_nil (b : Nat) : batchList b [] = [] := by
  rw [batchList]
  simp

lemma batchList_map_length (b : Nat) (xs : List Example) (hb : 0 < b) :
    (batchList b xs).map List.length =
      List.replicate (xs.length / b) b ++
        (if xs.length % b = 0 then [] else [xs.length % b]) := by
  induction xs using batchList.induct b with
  | case1 xs h =>
      have hx : xs = [] := by
        rcases h with h | h
        · exact List.length_eq_zero.mp h
        · omega
      subst hx
      rw [batchList_nil]
      simp
  | case2 xs h ih =>
      have h2 := h
      push_neg at h2
      obtain ⟨hlen0, hb0⟩ := h2
      rw [batchList, if_neg h]
      rcases Nat.lt_or_ge xs.length b with hlt | hge
      · have hdrop : xs.drop b = [] := List.drop_eq_nil_of_le (le_of_lt hlt)
        rw [hdrop, batchList_nil]
        simp only [List.map_cons, List.map_nil, List.length_take]
        rw [Nat.div_eq_of_lt hlt, Nat.mod_eq_of_lt hlt]
        simp [Nat.min_eq_right (le_of_lt hlt), hlen0]
      · rw [Nat.div_eq_sub_div hb hge, Nat.mod_eq_sub_mod hge]
        simp only [List.map_cons]
        rw [ih]
        rw [List.replicate_succ]
        simp [List.length_take, Nat.min_eq_left hge, List.length_drop]

lemma batchList_length_eq (xs : List Example) :
    (batchList 128 xs).length = (xs.length + 128 - 1) / 128 := by
  have h := batchList_map_length 128 xs (by norm_num)
  have h2 : (batchList 128 xs).length = ((batchList 128 xs).map List.length).length :=
    (List.length_map _ _).symm
  rw [h2, h, List.length_append, List.length_replicate]
  split_ifs with h0
  · simp only [List.length_nil]
    omega
  · simp only [List.length_cons, List.length_nil]
    omega

/-- C8: for every finite source stream of `N` examples, `make_dataset`
(with a supported resolution) yields `⌈N / 128⌉` batches; listing the
batch sizes gives `N / 128` full batches of 128 followed by one batch of
`N % 128` when `N` is not a multiple of 128, and nothing else. -/
theorem make_dataset_batch_sizes (ds : List Example) (train fixres : Bool)
    (sz npc : Nat) (coins : List Nat) (rng : Nat → Draw)
    (hsz : sz = smaller_size ∨ sz = bigger_size) :
    ∃ bs, make_dataset ds train sz fixres npc coins rng = .ok bs ∧
      bs.map List.length =
        List.replicate (ds.length / 128) 128 ++
          (if ds.length % 128 = 0 then [] else [ds.length % 128]) ∧
      bs.length = (ds.length + 128 - 1) / 128 := by
  have hmem : sz ∈ [smaller_size, bigger_size] := by
    rcases hsz with rfl | rfl <;> simp
  have hstream : (mapExamples (selectPreprocess train sz fixres) train rng
      (if train then tfShuffle (batch_size * 10) coins ds else ds)).length = ds.length := by
    rw [mapExamples_length]
    cases train
    · simp
    · rw [if_pos rfl]
      exact tfShuffle_length _ _ _ (by norm_num [batch_size])
  refine ⟨batchList batch_size (mapExamples (selectPreprocess train sz fixres) train rng
      (if train then tfShuffle (batch_size * 10) coins ds else ds)), ?_, ?_, ?_⟩
  · unfold make_dataset
    rw [if_neg (not_not_intro hmem)]
    rfl
  · calc (batchList batch_size (mapExamples (selectPreprocess train sz fixres) train rng
        (if train then tfShuffle (batch_size * 10) coins ds else ds))).map List.length
        = List.replicate ((mapExamples (selectPreprocess train sz fixres) train rng
            (if train then tfShuffle (batch_size * 10) coins ds else ds)).length / batch_size)
              batch_size ++
            (if (mapExamples (selectPreprocess train sz fixres) train rng
                (if train then tfShuffle (batch_size * 10) coins ds else ds)).length
                  % batch_size = 0
             then []
             else [(mapExamples (selectPreprocess train sz fixres) train rng
                (if train then tfShuffle (batch_size * 10) coins ds else ds)).length
                  % batch_size]) :=
          batchList_map_length batch_size _ (by norm_num [batch_size])
      _ = List.replicate (ds.length / 128) 128 ++
            (if ds.length % 128 = 0 then [] else [ds.length % 128]) := by
          rw [hstream]
          rfl
  · calc (batchList batch_size (mapExamples (selectPreprocess train sz fixres) train rng
        (if train then tfShuffle (batch_size * 10) coins ds else ds))).length
        = ((mapExamples (selectPreprocess train sz fixres) train rng
            (if train then tfShuffle (batch_size * 10) coins ds else ds)).length + 128 - 1)
              / 128 := batchList_length_eq _
      _ = (ds.length + 128 - 1) / 128 := by rw [hstream]

/-- Witness for C8 on a concrete three-example dataset. -/
theorem make_dataset_batch_sizes_witness :
    ((128 : Nat) = smaller_size ∨ (128 : Nat) = bigger_size) ∧
    ∃ bs, make_dataset (List.replicate 3 (testImage, 0)) true 128 true 0 []
        (fun _ => testDraw) = .ok bs ∧
      bs.map List.length =
        List.replicate ((List.replicate 3 ((testImage, 0) : Example)).length / 128) 128 ++
          (if (List.replicate 3 ((testImage, 0) : Example)).length % 128 = 0 then []
           else [(List.replicate 3 ((testImage, 0) : Example)).length % 128]) ∧
      bs.length = ((List.replicate 3 ((testImage, 0) : Example)).length + 128 - 1) / 128 :=
  ⟨Or.inl rfl,
    make_dataset_batch_sizes (List.replicate 3 (testImage, 0)) true true 128 0 []
      (fun _ => testDraw) (Or.inl rfl)⟩
